import Mathlib

/-!
Verification development for the mempool admission-and-retention engine
exercised by qa/rpc-tests/mempool_nu_activation.py.  The engine itself
(BranchSchedule, ExpiryPolicy, MempoolIndex, AdmissionController,
ChainReorgHandler) is not part of the repository sources; following the
specification it is given here as a shallow embedding, and the behaviour
that the reference test pins (including the documented replay-height bug
on block disconnect) is modelled alongside the specified behaviour.
-/

/-- Modelled from the spec: a transaction carries an identifier, a declared
expiry height (0 means no expiry), a serialized byte size, and the set of
spent inputs used for conflict detection. -/
structure Transaction where
  txid : Nat
  expiryHeight : Nat
  size : Nat
  inputs : List Nat
deriving DecidableEq

/-- Modelled from the spec: a mempool entry wraps a transaction with the
branch it was admitted under. -/
structure MempoolEntry where
  tx : Transaction
  admittedBranch : Nat
deriving DecidableEq

/-- Modelled from the spec: chain state exposes the current tip height.
The tip hash is elided because the admission, expiry and reorg logic under
specification never consults it. -/
structure ChainState where
  height : Nat
deriving DecidableEq

/-- Modelled from the spec: a block, reduced to its list of non-coinbase
transactions (the coinbase takes no part in mempool removal or replay). -/
structure Block where
  txs : List Transaction
deriving DecidableEq

/-- Modelled from the spec: the per-node state acted on by the engine,
namely the chain state and the mempool index contents. -/
structure NodeState where
  chain : ChainState
  mempool : List MempoolEntry
deriving DecidableEq

/-- Modelled from the spec: result classification of ExpiryPolicy. -/
inductive ExpiryStatus where
  | Valid
  | ExpiringSoon
  | Expired
deriving DecidableEq

/-- Modelled from the spec: rejection taxonomy of the engine. -/
inductive RejectReason where
  | ConfigError
  | ConsensusInvalid
  | Expired
  | DuplicateError
  | ConflictError
deriving DecidableEq

/-- Modelled from the spec: the fixed near-horizon design constant of
ExpiryPolicy (three blocks). -/
def expiringSoonThreshold : Nat := 3

/-- Modelled from the spec: ExpiryPolicy.status.  Expiry height 0 is
always Valid; otherwise Expired when the target height has reached the
expiry height, ExpiringSoon when the target height is within the fixed
near-horizon of the expiry height, else Valid. -/
def expiryStatus (tx : Transaction) (target : Nat) : ExpiryStatus :=
  if tx.expiryHeight = 0 then ExpiryStatus.Valid
  else if tx.expiryHeight ≤ target then ExpiryStatus.Expired
  else if tx.expiryHeight ≤ target + expiringSoonThreshold then ExpiryStatus.ExpiringSoon
  else ExpiryStatus.Valid

/-- Modelled from the spec: two transactions conflict when they spend a
common input. -/
def conflicts (t u : Transaction) : Bool :=
  t.inputs.any (fun i => u.inputs.contains i)

/-- Modelled from the spec: MempoolIndex membership query by identifier. -/
def mpContains (mp : List MempoolEntry) (id : Nat) : Bool :=
  mp.any (fun e => e.tx.txid = id)

/-- Modelled from the spec: does some existing entry spend an input also
spent by the candidate transaction. -/
def mpConflict (mp : List MempoolEntry) (t : Transaction) : Bool :=
  mp.any (fun e => conflicts t e.tx)

/-- Modelled from the spec: MempoolIndex byte-size accounting. -/
def mpTotalBytes (mp : List MempoolEntry) : Nat :=
  mp.foldl (fun acc e => acc + e.tx.size) 0

/-- Modelled from the spec: MempoolIndex.insert, failing with
DuplicateError when the identifier is present and with ConflictError when
an input is already spent by another entry (first seen wins). -/
def insertEntry (mp : List MempoolEntry) (e : MempoolEntry) :
    Except RejectReason (List MempoolEntry) :=
  if mpContains mp e.tx.txid then Except.error RejectReason.DuplicateError
  else if mpConflict mp e.tx then Except.error RejectReason.ConflictError
  else Except.ok (mp ++ [e])

/-- Modelled from the spec: MempoolIndex.remove, idempotent removal by
identifier. -/
def removeId (mp : List MempoolEntry) (id : Nat) : List MempoolEntry :=
  mp.filter (fun e => e.tx.txid ≠ id)

/-- Modelled from the spec: MempoolIndex.removeConflicting, removing the
entries that spend an input also spent by the given transaction. -/
def removeConflicting (mp : List MempoolEntry) (t : Transaction) : List MempoolEntry :=
  mp.filter (fun e => !conflicts t e.tx)

/-- Modelled from the spec: the BranchSchedule lookup, returning the table
entry (activation height and branch identifier) of the greatest activation
height at most the queried height, or none below the lowest registered
height. -/
def lookupActivation (sched : List (Nat × Nat)) (h : Nat) : Option (Nat × Nat) :=
  match sched with
  | [] => none
  | (a, b) :: rest =>
      if h < a then none
      else some ((lookupActivation rest h).getD (a, b))

/-- Modelled from the spec: BranchSchedule.branchAt; a none result stands
for ConfigError (queried below the lowest registered height). -/
def branchAt (sched : List (Nat × Nat)) (h : Nat) : Option Nat :=
  (lookupActivation sched h).map Prod.snd

/-- Modelled from the spec: the rule check every stored entry must satisfy
at a given target height, per the MempoolIndex invariant: the branch at
the target height must exist, the entry must pass the branch-specific
validity check, and it must not be Expired at the target height. -/
def entryValid (V : Nat → Transaction → Bool) (sched : List (Nat × Nat))
    (target : Nat) (e : MempoolEntry) : Bool :=
  match branchAt sched target with
  | none => false
  | some b => V b e.tx && (expiryStatus e.tx target ≠ ExpiryStatus.Expired)

/-- Modelled from the spec: AdmissionController.admitTx.  The target height
is chainState.height + 1; the branch is taken at the target height
(ConfigError if absent); the external branch-parameterized validator runs
first (ConsensusInvalid on failure); Expired status is rejected while
ExpiringSoon is admitted; duplicate and conflict checks follow the
MempoolIndex insert rules. -/
def admitTx (V : Nat → Transaction → Bool) (sched : List (Nat × Nat))
    (cs : ChainState) (mp : List MempoolEntry) (tx : Transaction) :
    Except RejectReason (List MempoolEntry) :=
  match branchAt sched (cs.height + 1) with
  | none => Except.error RejectReason.ConfigError
  | some b =>
      if V b tx then
        if expiryStatus tx (cs.height + 1) = ExpiryStatus.Expired then
          Except.error RejectReason.Expired
        else insertEntry mp ⟨tx, b⟩
      else Except.error RejectReason.ConsensusInvalid

/-- Modelled from the spec: replaying a list of transactions through
AdmissionController at a fixed chain state; rejected transactions are
silently dropped (reorg-triggered replay failures are not escalated). -/
def replayTxs (V : Nat → Transaction → Bool) (sched : List (Nat × Nat))
    (cs : ChainState) (txs : List Transaction) (mp : List MempoolEntry) :
    List MempoolEntry :=
  txs.foldl (fun acc t =>
    match admitTx V sched cs acc t with
    | Except.ok acc2 => acc2
    | Except.error _ => acc) mp

/-- Modelled from the spec: submitting a batch of transactions at the
current tip (the submitTransaction entry point, applied in order, with
rejected submissions dropped). -/
def submitMany (V : Nat → Transaction → Bool) (sched : List (Nat × Nat))
    (s : NodeState) (txs : List Transaction) : NodeState :=
  ⟨s.chain, replayTxs V sched s.chain txs s.mempool⟩

/-- Modelled from the spec: ChainReorgHandler Connect.  Every non-coinbase
transaction of the block is removed from the index together with entries
conflicting with it, the tip height increases by one, and the remaining
entries are swept synchronously against the rule check at the new tip
plus one (removing entries that are Expired there, and entries no longer
valid under the branch governing the new next height, per the stored
entry invariant). -/
def connectBlock (V : Nat → Transaction → Bool) (sched : List (Nat × Nat))
    (s : NodeState) (B : Block) : NodeState :=
  let mp1 := B.txs.foldl (fun acc t => removeConflicting (removeId acc t.txid) t) s.mempool
  let h2 := s.chain.height + 1
  ⟨⟨h2⟩, mp1.filter (entryValid V sched (h2 + 1))⟩

/-- Modelled from the spec: connecting a sequence of blocks in order. -/
def connectMany (V : Nat → Transaction → Bool) (sched : List (Nat × Nat))
    (s : NodeState) (blocks : List Block) : NodeState :=
  blocks.foldl (connectBlock V sched) s

/-- Modelled from the spec: ChainReorgHandler Disconnect with the ordering
the spec mandates: the chain height decreases by one first, the remaining
entries are swept against the rule check at the new next height, and only
then are the block transactions replayed through AdmissionController at
the post-disconnect height. -/
def disconnectBlock (V : Nat → Transaction → Bool) (sched : List (Nat × Nat))
    (s : NodeState) (B : Block) : NodeState :=
  let h2 := s.chain.height - 1
  let mp1 := s.mempool.filter (entryValid V sched (h2 + 1))
  ⟨⟨h2⟩, replayTxs V sched ⟨h2⟩ B.txs mp1⟩

/-- Modelled from the reference test (mempool_nu_activation.py lines
177-192), which documents the shipped behaviour as a bug: on disconnect
the chain height seen by the admission path is not updated until after
the disconnected transactions have been replayed, so replay admission
runs at the stale pre-disconnect height; the sweep then runs at the
updated height. -/
def disconnectBlockPreUpdate (V : Nat → Transaction → Bool) (sched : List (Nat × Nat))
    (s : NodeState) (B : Block) : NodeState :=
  let mp1 := replayTxs V sched s.chain B.txs s.mempool
  let h2 := s.chain.height - 1
  ⟨⟨h2⟩, mp1.filter (entryValid V sched (h2 + 1))⟩

/-- Modelled from the spec: the stored-entry invariant, every mempool
entry satisfies the rule check against the current tip height plus one. -/
def mempoolInvariant (V : Nat → Transaction → Bool) (sched : List (Nat × Nat))
    (s : NodeState) : Prop :=
  ∀ e ∈ s.mempool, entryValid V sched (s.chain.height + 1) e = true

/-- Modelled from the spec: survival predicate for an entry across a
sequence of block connects starting at the given tip height: at each
connect the entry must not be mined, must not conflict with a mined
transaction, and must still pass the rule check at the new next height. -/
def survivesBlocks (V : Nat → Transaction → Bool) (sched : List (Nat × Nat))
    (h : Nat) (blocks : List Block) (e : MempoolEntry) : Bool :=
  match blocks with
  | [] => true
  | B :: rest =>
      B.txs.all (fun t => (e.tx.txid ≠ t.txid) && !conflicts t e.tx)
        && entryValid V sched (h + 2) e
        && survivesBlocks V sched (h + 1) rest e

/-- Modelled from the spec: a network is a list of per-node states; an
event applies to exactly one node index. -/
def networkApply (f : NodeState → NodeState) (net : List NodeState) (i : Nat) :
    List NodeState :=
  match net[i]? with
  | some s => net.set i (f s)
  | none => net

/-- Modelled from the spec: a Connect event delivered to node i only. -/
def networkConnect (V : Nat → Transaction → Bool) (sched : List (Nat × Nat))
    (net : List NodeState) (i : Nat) (B : Block) : List NodeState :=
  networkApply (fun s => connectBlock V sched s B) net i

/-- Modelled from the spec: a Disconnect event delivered to node i only. -/
def networkDisconnect (V : Nat → Transaction → Bool) (sched : List (Nat × Nat))
    (net : List NodeState) (i : Nat) (B : Block) : List NodeState :=
  networkApply (fun s => disconnectBlock V sched s B) net i

/-- Branch identifier used below the first registered upgrade (Sapling). -/
def SAPLING_BRANCH_ID : Nat := 0x76b809bb

/-- Branch identifier of the Blossom upgrade. -/
def BLOSSOM_BRANCH_ID : Nat := 0x2bb40e60

/-- Branch identifier of the Heartwood upgrade. -/
def HEARTWOOD_BRANCH_ID : Nat := 0xf5b9230b

/-- Branch identifier of the Canopy upgrade. -/
def CANOPY_BRANCH_ID : Nat := 0xe9ff75a6

/-- Branch identifier of the NU5 upgrade. -/
def NU5_BRANCH_ID : Nat := 0xc2d6d0b4

/-- Branch identifier of the NU6 upgrade. -/
def NU6_BRANCH_ID : Nat := 0xc8e71055

/-- The branch schedule of the reference test: the base branch from height
1 and upgrade activations at heights 200, 210, 220, 230 and 240. -/
def testSchedule : List (Nat × Nat) :=
  [(1, SAPLING_BRANCH_ID), (200, BLOSSOM_BRANCH_ID), (210, HEARTWOOD_BRANCH_ID),
   (220, CANOPY_BRANCH_ID), (230, NU5_BRANCH_ID), (240, NU6_BRANCH_ID)]

/-- Modelled from the spec: the external branch-parameterized consensus
validator is pluggable; this concrete instance marks transactions with
identifier below 100 as valid only under the base branch and the others
as valid only under the Blossom branch, mirroring the X and Y transaction
populations of the reference test. -/
def scenarioValidator : Nat → Transaction → Bool :=
  fun b tx =>
    if tx.txid < 100 then decide (b = SAPLING_BRANCH_ID)
    else decide (b = BLOSSOM_BRANCH_ID)

/-- An X transaction of the activation scenario: valid only under the base
branch, expiring at the activation height 200 (within the near-horizon of
height 200 when submitted at tip 195). -/
def xtx (n : Nat) : Transaction := ⟨n, 200, 250, [n]⟩

/-- A Y transaction of the activation scenario: valid only under the
Blossom branch. -/
def ytx (n : Nat) : Transaction := ⟨100 + n, 220, 250, [100 + n]⟩

/-- A transaction with no branch boundary in sight and no declared expiry,
valid only under the base branch. -/
def wtx : Transaction := ⟨8, 0, 250, [8]⟩

/-- Initial state of the end-to-end activation scenario: tip height 195,
empty mempool. -/
def scenarioStart : NodeState := ⟨⟨195⟩, []⟩

/-- The X transactions submitted at tip height 195. -/
def xSubmissions : List Transaction := [xtx 1, xtx 2, xtx 3, xtx 4, xtx 5, xtx 6]

/-- State after submitting the X transactions at tip height 195. -/
def s195 : NodeState := submitMany scenarioValidator testSchedule scenarioStart xSubmissions

/-- The block mined at height 196, including a subset of the pending X
transactions. -/
def B196 : Block := ⟨[xtx 1, xtx 2]⟩

/-- The block mined at height 197. -/
def B197 : Block := ⟨[xtx 3]⟩

/-- The block mined at height 198. -/
def B198 : Block := ⟨[xtx 4]⟩

/-- The block mined at height 199 (the last block of the base branch). -/
def B199 : Block := ⟨[xtx 5]⟩

/-- The block mined at height 200 (the first block of the new branch),
containing none of the X transactions. -/
def B200 : Block := ⟨[]⟩

/-- The five blocks mined on top of height 195 in the scenario. -/
def activationBlocks : List Block := [B196, B197, B198, B199, B200]

/-- State immediately after the block at height 200 is mined. -/
def sAfter200 : NodeState := connectMany scenarioValidator testSchedule s195 activationBlocks

/-- A mempool entry for a Y transaction admitted under the Blossom branch. -/
def yEntry : MempoolEntry := ⟨ytx 1, BLOSSOM_BRANCH_ID⟩

/-- State of node 0 just before the invalidation step of the reference
test: tip height 199, mempool holding a Y transaction. -/
def s199 : NodeState := ⟨⟨199⟩, [yEntry]⟩

/-- Mempool entry for the no-expiry base-branch transaction. -/
def wEntry : MempoolEntry := ⟨wtx, SAPLING_BRANCH_ID⟩

/-- State at tip height 198 holding only the no-expiry base-branch
transaction. -/
def s198w : NodeState := ⟨⟨198⟩, [wEntry]⟩

/-- An empty block (only a coinbase, hence no replayable transactions). -/
def emptyBlock : Block := ⟨[]⟩

/-- Modelled from the spec: a shielded note tracked by the external
note-tracking collaborator, with an owning address, an amount, and the
nullifier-like input identifier a spend of it consumes. -/
structure Note where
  owner : Nat
  amount : Nat
  noteId : Nat
deriving DecidableEq

/-- Modelled from the spec: the shieldedBalance observable of the external
note-tracking collaborator; a note is counted only while no transaction
currently held in the mempool spends it. -/
def shieldedBalance (notes : List Note) (mp : List MempoolEntry) (addr : Nat) : Nat :=
  (notes.filter (fun n =>
      n.owner = addr && !(mp.any (fun e => e.tx.inputs.contains n.noteId)))).foldl
    (fun acc n => acc + n.amount) 0

/-- The single shielded note of the scenario, held by address 0. -/
def zNote : Note := ⟨0, 9, 500⟩

/-- The wallet note set of the scenario. -/
def walletNotes : List Note := [zNote]

/-- The shielded Y transaction of the scenario, spending the note. -/
def spendTx : Transaction := ⟨150, 220, 400, [500]⟩

/-- State at tip height 199 with an empty mempool, before the shielded
spend is submitted. -/
def s199empty : NodeState := ⟨⟨199⟩, []⟩

/-- State after submitting the shielded spend at tip height 199. -/
def s199spend : NodeState := submitMany scenarioValidator testSchedule s199empty [spendTx]

/-- Modelled from the spec: the BranchSchedule table invariant, activation
heights strictly increasing. -/
def schedSorted (sched : List (Nat × Nat)) : Prop :=
  List.Pairwise (fun p q => p.1 < q.1) sched

/-- A quiescent state far from any activation boundary: tip height 150,
holding the no-expiry base-branch transaction. -/
def s150w : NodeState := ⟨⟨150⟩, [wEntry]⟩

/-- The block at height 150, mining an unrelated base-branch transaction. -/
def B150 : Block := ⟨[xtx 9]⟩

theorem lookupActivation_mem {sched : List (Nat × Nat)} {h : Nat} {p : Nat × Nat}
    (hl : lookupActivation sched h = some p) : p ∈ sched ∧ p.1 ≤ h := by
  induction sched with
  | nil => simp [lookupActivation] at hl
  | cons q rest ih =>
    obtain ⟨a, b⟩ := q
    simp only [lookupActivation] at hl
    by_cases hc : h < a
    · simp [hc] at hl
    · rw [if_neg hc] at hl
      cases hr : lookupActivation rest h with
      | none =>
        rw [hr] at hl
        simp only [Option.getD_none, Option.some.injEq] at hl
        subst hl
        exact ⟨List.mem_cons_self _ _, Nat.le_of_not_lt hc⟩
      | some q2 =>
        rw [hr] at hl
        simp only [Option.getD_some, Option.some.injEq] at hl
        subst hl
        obtain ⟨hmem, hle⟩ := ih hr
        exact ⟨List.mem_cons_of_mem _ hmem, hle⟩

theorem lookupActivation_none_lt {sched : List (Nat × Nat)} {h : Nat}
    (hs : schedSorted sched) (hl : lookupActivation sched h = none) :
    ∀ p ∈ sched, h < p.1 := by
  induction sched with
  | nil => intro p hp; cases hp
  | cons q rest ih =>
    obtain ⟨a, b⟩ := q
    simp only [lookupActivation] at hl
    by_cases hc : h < a
    · intro p hp
      rcases List.mem_cons.mp hp with h1 | h2
      · subst h1; exact hc
      · exact Nat.lt_of_lt_of_le hc (Nat.le_of_lt ((List.pairwise_cons.mp hs).1 p h2))
    · rw [if_neg hc] at hl
      cases hl

theorem lookupActivation_max {sched : List (Nat × Nat)} (hs : schedSorted sched)
    {h : Nat} {p : Nat × Nat} (hl : lookupActivation sched h = some p) :
    ∀ q ∈ sched, q.1 ≤ h → q.1 ≤ p.1 := by
  induction sched with
  | nil => simp [lookupActivation] at hl
  | cons q0 rest ih =>
    obtain ⟨a, b⟩ := q0
    obtain ⟨hhead, htail⟩ := List.pairwise_cons.mp hs
    simp only [lookupActivation] at hl
    by_cases hc : h < a
    · simp [hc] at hl
    · rw [if_neg hc] at hl
      cases hr : lookupActivation rest h with
      | none =>
        rw [hr] at hl
        simp only [Option.getD_none, Option.some.injEq] at hl
        subst hl
        intro q hq hqh
        rcases List.mem_cons.mp hq with h1 | h2
        · subst h1; exact Nat.le_refl _
        · exact absurd hqh (Nat.not_le_of_lt (lookupActivation_none_lt htail hr q h2))
      | some q2 =>
        rw [hr] at hl
        simp only [Option.getD_some, Option.some.injEq] at hl
        subst hl
        intro q hq hqh
        rcases List.mem_cons.mp hq with h1 | h2
        · subst h1
          exact Nat.le_of_lt (hhead _ (lookupActivation_mem hr).1)
        · exact ih htail hr q h2 hqh

theorem lookupActivation_isSome {a b : Nat} {rest : List (Nat × Nat)} {h : Nat}
    (ha : a ≤ h) : ∃ p, lookupActivation ((a, b) :: rest) h = some p := by
  simp only [lookupActivation, if_neg (Nat.not_lt_of_le ha)]
  exact ⟨_, rfl⟩

theorem lookupActivation_eq {sched : List (Nat × Nat)} (hs : schedSorted sched)
    {h : Nat} {p : Nat × Nat} (hp : p ∈ sched) (hle : p.1 ≤ h)
    (hmax : ∀ q ∈ sched, q.1 ≤ h → q.1 ≤ p.1) :
    lookupActivation sched h = some p := by
  induction sched with
  | nil => cases hp
  | cons q0 rest ih =>
    obtain ⟨a, b⟩ := q0
    obtain ⟨hhead, htail⟩ := List.pairwise_cons.mp hs
    have hah : a ≤ h := by
      rcases List.mem_cons.mp hp with h1 | h2
      · subst h1; exact hle
      · exact Nat.le_trans (Nat.le_of_lt (hhead _ h2)) hle
    simp only [lookupActivation, if_neg (Nat.not_lt_of_le hah)]
    rcases List.mem_cons.mp hp with h1 | h2
    · subst h1
      cases hr : lookupActivation rest h with
      | none => rfl
      | some q2 =>
        obtain ⟨hq2mem, hq2le⟩ := lookupActivation_mem hr
        have h1 := hhead _ hq2mem
        have h2 := hmax q2 (List.mem_cons_of_mem _ hq2mem) hq2le
        exact absurd h2 (Nat.not_le_of_lt h1)
    · rw [ih htail h2 (fun q hq hqh => hmax q (List.mem_cons_of_mem _ hq) hqh)]
      rfl

theorem lookupActivation_mono {sched : List (Nat × Nat)} (hs : schedSorted sched)
    {h h2 : Nat} {p : Nat × Nat} (hle : h ≤ h2)
    (hl : lookupActivation sched h = some p) :
    ∃ q, lookupActivation sched h2 = some q ∧ p.1 ≤ q.1 := by
  induction sched with
  | nil => simp [lookupActivation] at hl
  | cons q0 rest ih =>
    obtain ⟨a, b⟩ := q0
    obtain ⟨hhead, htail⟩ := List.pairwise_cons.mp hs
    simp only [lookupActivation] at hl
    by_cases hc : h < a
    · simp [hc] at hl
    · have hc2 : ¬ h2 < a := Nat.not_lt_of_le (Nat.le_trans (Nat.le_of_not_lt hc) hle)
      rw [if_neg hc] at hl
      simp only [lookupActivation, if_neg hc2]
      cases hr : lookupActivation rest h with
      | none =>
        rw [hr] at hl
        simp only [Option.getD_none, Option.some.injEq] at hl
        subst hl
        cases hr2 : lookupActivation rest h2 with
        | none => exact ⟨(a, b), rfl, Nat.le_refl _⟩
        | some q2 =>
          exact ⟨q2, rfl, Nat.le_of_lt (hhead _ (lookupActivation_mem hr2).1)⟩
      | some q2 =>
        rw [hr] at hl
        simp only [Option.getD_some, Option.some.injEq] at hl
        subst hl
        obtain ⟨q3, hq3, hq3le⟩ := ih htail hr
        rw [hq3]
        exact ⟨q3, rfl, hq3le⟩

theorem admitTx_ok_elim {V : Nat → Transaction → Bool} {sched : List (Nat × Nat)}
    {cs : ChainState} {mp mp2 : List MempoolEntry} {tx : Transaction}
    (hok : admitTx V sched cs mp tx = Except.ok mp2) :
    ∃ b, branchAt sched (cs.height + 1) = some b ∧ V b tx = true ∧
      expiryStatus tx (cs.height + 1) ≠ ExpiryStatus.Expired ∧
      mpContains mp tx.txid = false ∧ mpConflict mp tx = false ∧
      mp2 = mp ++ [⟨tx, b⟩] := by
  unfold admitTx insertEntry at hok
  split at hok
  · cases hok
  next b hb =>
    split at hok
    next hV =>
      split at hok
      · cases hok
      next hex =>
        split at hok
        · cases hok
        next hdup =>
          split at hok
          · cases hok
          next hcon =>
            cases hok
            exact ⟨b, hb, hV, hex, by simpa using hdup, by simpa using hcon, rfl⟩
    next hV => cases hok

theorem admitTx_ok_intro {V : Nat → Transaction → Bool} {sched : List (Nat × Nat)}
    {cs : ChainState} {mp : List MempoolEntry} {tx : Transaction} {b : Nat}
    (hb : branchAt sched (cs.height + 1) = some b) (hV : V b tx = true)
    (hex : expiryStatus tx (cs.height + 1) ≠ ExpiryStatus.Expired)
    (hdup : mpContains mp tx.txid = false) (hcon : mpConflict mp tx = false) :
    admitTx V sched cs mp tx = Except.ok (mp ++ [⟨tx, b⟩]) := by
  unfold admitTx insertEntry
  split
  next hb2 => rw [hb] at hb2; cases hb2
  next b2 hb2 =>
    rw [hb] at hb2
    cases hb2
    rw [if_pos hV, if_neg hex]
    simp [hdup, hcon]

theorem admitTx_consensus_invalid_iff {V : Nat → Transaction → Bool}
    {sched : List (Nat × Nat)} {cs : ChainState} {mp : List MempoolEntry}
    {tx : Transaction} {b : Nat} (hb : branchAt sched (cs.height + 1) = some b) :
    admitTx V sched cs mp tx = Except.error RejectReason.ConsensusInvalid ↔ V b tx = false := by
  unfold admitTx insertEntry
  split
  next hb2 => rw [hb] at hb2; cases hb2
  next b2 hb2 =>
    rw [hb] at hb2
    cases hb2
    by_cases hV : V b tx = true
    · rw [if_pos hV, hV]
      constructor
      · intro hcontra
        split at hcontra
        · cases hcontra
        · split at hcontra
          · cases hcontra
          · split at hcontra
            · cases hcontra
            · cases hcontra
      · intro hfalse; cases hfalse
    · rw [if_neg hV]
      simp only [Bool.not_eq_true] at hV
      simp [hV]

theorem foldl_remove_eq_filter (txs : List Transaction) :
    ∀ mp : List MempoolEntry,
      txs.foldl (fun acc t => removeConflicting (removeId acc t.txid) t) mp
        = mp.filter (fun e => txs.all (fun t => (e.tx.txid ≠ t.txid) && !conflicts t e.tx)) := by
  induction txs with
  | nil =>
    intro mp
    simp [List.filter_eq_self]
  | cons t ts ih =>
    intro mp
    rw [List.foldl_cons, ih]
    unfold removeConflicting removeId
    rw [List.filter_filter, List.filter_filter]
    apply List.filter_congr
    intro e _
    simp only [List.all_cons]
    cases h1 : (decide (e.tx.txid ≠ t.txid)) <;>
      cases h2 : (!conflicts t e.tx) <;>
      cases h3 : (ts.all (fun t2 => (e.tx.txid ≠ t2.txid) && !conflicts t2 e.tx)) <;> rfl

theorem replayTxs_append (V : Nat → Transaction → Bool) (sched : List (Nat × Nat))
    (cs : ChainState) :
    ∀ (txs : List Transaction) (mp : List MempoolEntry),
      ∃ R, replayTxs V sched cs txs mp = mp ++ R ∧ ∀ e ∈ R, e.tx ∈ txs := by
  intro txs
  induction txs with
  | nil =>
    intro mp
    exact ⟨[], by simp [replayTxs], by intro e he; cases he⟩
  | cons t ts ih =>
    intro mp
    show ∃ R, replayTxs V sched cs ts
        (match admitTx V sched cs mp t with
          | Except.ok acc2 => acc2
          | Except.error _ => mp) = mp ++ R ∧ _
    cases hadm : admitTx V sched cs mp t with
    | error r =>
      obtain ⟨R, heq, hmem⟩ := ih mp
      exact ⟨R, heq, fun e he => List.mem_cons_of_mem _ (hmem e he)⟩
    | ok mp2 =>
      obtain ⟨b, _, _, _, _, _, hmp2⟩ := admitTx_ok_elim hadm
      subst hmp2
      obtain ⟨R, heq, hmem⟩ := ih (mp ++ [⟨t, b⟩])
      refine ⟨⟨t, b⟩ :: R, ?_, ?_⟩
      · rw [heq, List.append_assoc]
        rfl
      · intro e he
        rcases List.mem_cons.mp he with h1 | h2
        · subst h1; exact List.mem_cons_self _ _
        · exact List.mem_cons_of_mem _ (hmem e h2)

theorem replayTxs_valid (V : Nat → Transaction → Bool) (sched : List (Nat × Nat))
    (cs : ChainState) :
    ∀ (txs : List Transaction) (mp : List MempoolEntry),
      (∀ e ∈ mp, entryValid V sched (cs.height + 1) e = true) →
      ∀ e ∈ replayTxs V sched cs txs mp, entryValid V sched (cs.height + 1) e = true := by
  intro txs
  induction txs with
  | nil =>
    intro mp hmp e he
    exact hmp e he
  | cons t ts ih =>
    intro mp hmp
    show ∀ e ∈ replayTxs V sched cs ts
        (match admitTx V sched cs mp t with
          | Except.ok acc2 => acc2
          | Except.error _ => mp), _
    cases hadm : admitTx V sched cs mp t with
    | error r => exact ih mp hmp
    | ok mp2 =>
      obtain ⟨b, hb, hV, hex, _, _, hmp2⟩ := admitTx_ok_elim hadm
      subst hmp2
      refine ih (mp ++ [⟨t, b⟩]) ?_
      intro e he
      rcases List.mem_append.mp he with h1 | h2
      · exact hmp e h1
      · rcases List.mem_singleton.mp h2 with rfl
        unfold entryValid
        rw [hb]
        simp [hV, hex]

theorem connectBlock_mempool (V : Nat → Transaction → Bool) (sched : List (Nat × Nat))
    (s : NodeState) (B : Block) :
    (connectBlock V sched s B).mempool
      = s.mempool.filter (fun e =>
          entryValid V sched (s.chain.height + 2) e
            && B.txs.all (fun t => (e.tx.txid ≠ t.txid) && !conflicts t e.tx)) := by
  show (B.txs.foldl (fun acc t => removeConflicting (removeId acc t.txid) t) s.mempool).filter
      (entryValid V sched (s.chain.height + 1 + 1)) = _
  rw [foldl_remove_eq_filter, List.filter_filter]

theorem connectMany_mempool (V : Nat → Transaction → Bool) (sched : List (Nat × Nat)) :
    ∀ (blocks : List Block) (s : NodeState),
      (connectMany V sched s blocks).mempool
        = s.mempool.filter (survivesBlocks V sched s.chain.height blocks) := by
  intro blocks
  induction blocks with
  | nil =>
    intro s
    show s.mempool = _
    rw [List.filter_eq_self.mpr]
    intro a _
    rfl
  | cons B rest ih =>
    intro s
    show (connectMany V sched (connectBlock V sched s B) rest).mempool = _
    rw [ih (connectBlock V sched s B), connectBlock_mempool, List.filter_filter]
    apply List.filter_congr
    intro e _
    show (survivesBlocks V sched (s.chain.height + 1) rest e
        && (entryValid V sched (s.chain.height + 2) e
            && B.txs.all (fun t => (e.tx.txid ≠ t.txid) && !conflicts t e.tx)))
      = survivesBlocks V sched s.chain.height (B :: rest) e
    conv_rhs => rw [survivesBlocks]
    cases h1 : (B.txs.all fun t => decide (e.tx.txid ≠ t.txid) && !conflicts t e.tx) <;>
      cases h2 : entryValid V sched (s.chain.height + 2) e <;>
      cases h3 : survivesBlocks V sched (s.chain.height + 1) rest e <;>
      rfl

theorem survivesBlocks_not_mined (V : Nat → Transaction → Bool) (sched : List (Nat × Nat)) :
    ∀ (blocks : List Block) (h : Nat) (e : MempoolEntry),
      survivesBlocks V sched h blocks e = true →
      ∀ B ∈ blocks, ∀ t ∈ B.txs, e.tx.txid ≠ t.txid := by
  intro blocks
  induction blocks with
  | nil => intro h e _ B hB; cases hB
  | cons B0 rest ih =>
    intro h e hs B hB t ht
    unfold survivesBlocks at hs
    simp only [Bool.and_eq_true] at hs
    obtain ⟨⟨hall, _⟩, hrest⟩ := hs
    rcases List.mem_cons.mp hB with h1 | h2
    · subst h1
      have h4 := List.all_eq_true.mp hall t ht
      simp only [Bool.and_eq_true, decide_eq_true_eq] at h4
      exact h4.1
    · exact ih (h + 1) e hrest B h2 t ht

theorem testSchedule_sorted : schedSorted testSchedule := by
  unfold schedSorted
  decide

/-- C5: for every height at or above the lowest registered activation
height, BranchSchedule.branchAt returns exactly the branch identifier of
the entry whose activation height is the greatest activation height at
most the queried height; the selected activation entry is non-decreasing
in the queried height; and the lookup fails (the ConfigError case,
modelled as none) for every height below the lowest registered height. -/
theorem branch_schedule_correct (sched : List (Nat × Nat)) (hs : schedSorted sched) :
    (∀ a0 b0 rest, sched = (a0, b0) :: rest → ∀ h, h < a0 → branchAt sched h = none)
    ∧ (∀ a0 b0 rest h, sched = (a0, b0) :: rest → a0 ≤ h →
        ∃ p, lookupActivation sched h = some p ∧ branchAt sched h = some p.2
          ∧ p ∈ sched ∧ p.1 ≤ h ∧ ∀ q ∈ sched, q.1 ≤ h → q.1 ≤ p.1)
    ∧ (∀ h p, p ∈ sched → p.1 ≤ h → (∀ q ∈ sched, q.1 ≤ h → q.1 ≤ p.1) →
        branchAt sched h = some p.2)
    ∧ (∀ h h2 p, h ≤ h2 → lookupActivation sched h = some p →
        ∃ q, lookupActivation sched h2 = some q ∧ p.1 ≤ q.1) := by
  refine ⟨?_, ?_, ?_, ?_⟩
  · intro a0 b0 rest hsched h hlt
    subst hsched
    show ((if h < a0 then none
        else some ((lookupActivation rest h).getD (a0, b0))).map Prod.snd) = none
    rw [if_pos hlt]
    rfl
  · intro a0 b0 rest h hsched hle
    subst hsched
    obtain ⟨p, hp⟩ := @lookupActivation_isSome a0 b0 rest h hle
    refine ⟨p, hp, ?_, (lookupActivation_mem hp).1, (lookupActivation_mem hp).2,
      lookupActivation_max hs hp⟩
    unfold branchAt
    rw [hp]
    rfl
  · intro h p hmem hle hmax
    unfold branchAt
    rw [lookupActivation_eq hs hmem hle hmax]
    rfl
  · intro h h2 p hle hl
    exact lookupActivation_mono hs hle hl

/-- Concrete instantiation of branch_schedule_correct at the schedule of
the reference test. -/
theorem branch_schedule_correct_witness :
    branchAt testSchedule 0 = none
    ∧ branchAt testSchedule 215 = some HEARTWOOD_BRANCH_ID := by
  have h := branch_schedule_correct testSchedule testSchedule_sorted
  constructor
  · exact h.1 1 SAPLING_BRANCH_ID _ rfl 0 (by decide)
  · exact h.2.2.1 215 (210, HEARTWOOD_BRANCH_ID) (by decide) (by decide) (by decide)

/-- C2: AdmissionController.admitTx validates against the branch returned
by branchAt at targetHeight = chainState.height + 1, never against the
branch of the current tip height: given the branch at the next height,
admission rejects with ConsensusInvalid exactly when the validator fails
under that branch; the schedule lookup failing at the next height yields
ConfigError; and when the tip sits one block below an activation height
the branch consulted is the upcoming branch of that activation. -/
theorem admission_targets_next_height (V : Nat → Transaction → Bool)
    (sched : List (Nat × Nat)) (cs : ChainState) (mp : List MempoolEntry)
    (tx : Transaction) :
    (∀ b, branchAt sched (cs.height + 1) = some b →
        ((admitTx V sched cs mp tx = Except.error RejectReason.ConsensusInvalid)
          ↔ V b tx = false))
    ∧ (branchAt sched (cs.height + 1) = none →
        admitTx V sched cs mp tx = Except.error RejectReason.ConfigError)
    ∧ (∀ a b, schedSorted sched → (a, b) ∈ sched → cs.height + 1 = a →
        branchAt sched (cs.height + 1) = some b) := by
  refine ⟨?_, ?_, ?_⟩
  · intro b hb
    exact admitTx_consensus_invalid_iff hb
  · intro hnone
    unfold admitTx
    split
    · rfl
    next b2 hb2 => rw [hnone] at hb2; cases hb2
  · intro a b hs hmem heq
    unfold branchAt
    rw [@lookupActivation_eq sched hs (cs.height + 1) (a, b) hmem (Nat.le_of_eq heq.symm)
      (fun q hq hqh => by rw [heq] at hqh; exact hqh)]
    rfl

/-- Concrete instantiation of admission_targets_next_height: at tip
height 199 (one below the Blossom activation at 200) a base-branch
transaction is rejected as ConsensusInvalid because admission consults
the upcoming Blossom branch, not the tip branch. -/
theorem admission_targets_next_height_witness :
    admitTx scenarioValidator testSchedule ⟨199⟩ [] (xtx 5)
      = Except.error RejectReason.ConsensusInvalid := by
  have h := admission_targets_next_height scenarioValidator testSchedule ⟨199⟩ [] (xtx 5)
  exact (h.1 BLOSSOM_BRANCH_ID
    (h.2.2 200 BLOSSOM_BRANCH_ID testSchedule_sorted (by decide) (by decide))).mpr (by decide)

/-- C4: for every transaction with declared expiry height E greater than
0, ExpiryPolicy.status is not Expired at target height E - 1 and is
Expired at every target height at least E; consequently admission (with
the branch found and the validator passing) rejects with Expired at every
target height at least E, and accepts at target height E - 1 when no
duplicate or conflict intervenes. -/
theorem expiry_boundary_exactness (tx : Transaction) (hE : 0 < tx.expiryHeight) :
    expiryStatus tx (tx.expiryHeight - 1) ≠ ExpiryStatus.Expired
    ∧ (∀ target, tx.expiryHeight ≤ target → expiryStatus tx target = ExpiryStatus.Expired)
    ∧ (∀ (V : Nat → Transaction → Bool) sched (cs : ChainState) mp b,
        branchAt sched (cs.height + 1) = some b → V b tx = true →
        tx.expiryHeight ≤ cs.height + 1 →
        admitTx V sched cs mp tx = Except.error RejectReason.Expired)
    ∧ (∀ (V : Nat → Transaction → Bool) sched (cs : ChainState) mp b,
        branchAt sched (cs.height + 1) = some b → V b tx = true →
        cs.height + 2 = tx.expiryHeight →
        mpContains mp tx.txid = false → mpConflict mp tx = false →
        admitTx V sched cs mp tx = Except.ok (mp ++ [⟨tx, b⟩])) := by
  have hexp : ∀ target, tx.expiryHeight ≤ target →
      expiryStatus tx target = ExpiryStatus.Expired := by
    intro target hle
    unfold expiryStatus
    rw [if_neg (by omega), if_pos hle]
  have hnot : ∀ target, target < tx.expiryHeight →
      expiryStatus tx target ≠ ExpiryStatus.Expired := by
    intro target hlt
    unfold expiryStatus
    rw [if_neg (by omega), if_neg (by omega)]
    split
    · intro hcontra; cases hcontra
    · intro hcontra; cases hcontra
  refine ⟨hnot _ (by omega), hexp, ?_, ?_⟩
  · intro V sched cs mp b hb hV hle
    unfold admitTx
    split
    next hb2 => rw [hb] at hb2; cases hb2
    next b2 hb2 =>
      rw [hb] at hb2
      cases hb2
      rw [if_pos hV, if_pos (hexp _ hle)]
  · intro V sched cs mp b hb hV heq hdup hcon
    exact admitTx_ok_intro hb hV (hnot _ (by omega)) hdup hcon

/-- Concrete instantiation of expiry_boundary_exactness for a transaction
expiring at height 220: accepted at target height 219, rejected as
Expired at target height 220. -/
theorem expiry_boundary_exactness_witness :
    expiryStatus (ytx 1) 219 ≠ ExpiryStatus.Expired
    ∧ expiryStatus (ytx 1) 220 = ExpiryStatus.Expired
    ∧ admitTx (fun _ _ => true) testSchedule ⟨219⟩ [] (ytx 1)
        = Except.error RejectReason.Expired
    ∧ admitTx (fun _ _ => true) testSchedule ⟨218⟩ [] (ytx 1)
        = Except.ok [⟨ytx 1, HEARTWOOD_BRANCH_ID⟩] := by
  have h := expiry_boundary_exactness (ytx 1) (by decide)
  exact ⟨h.1, h.2.1 220 (by decide),
    h.2.2.1 (fun _ _ => true) testSchedule ⟨219⟩ [] CANOPY_BRANCH_ID
      (by decide) rfl (by decide),
    h.2.2.2 (fun _ _ => true) testSchedule ⟨218⟩ [] HEARTWOOD_BRANCH_ID
      (by decide) rfl (by decide) (by decide) (by decide)⟩

/-- C7 (amended): after connecting k blocks, the mempool holds exactly
those original entries that at every step were not mined, did not
conflict with a mined transaction, and still passed the stored-entry rule
check (unexpired and branch-valid) at the new next height; and the
mempool never contains a transaction mined by any of the connected
blocks. -/
theorem connect_retention_characterization (V : Nat → Transaction → Bool)
    (sched : List (Nat × Nat)) (s : NodeState) (blocks : List Block) :
    (connectMany V sched s blocks).mempool
      = s.mempool.filter (survivesBlocks V sched s.chain.height blocks)
    ∧ ∀ B ∈ blocks, ∀ t ∈ B.txs,
        mpContains (connectMany V sched s blocks).mempool t.txid = false := by
  refine ⟨connectMany_mempool V sched blocks s, ?_⟩
  intro B hB t ht
  rw [connectMany_mempool V sched blocks s]
  unfold mpContains
  rw [List.any_eq_false]
  intro e he
  have hs := List.of_mem_filter he
  have hne := survivesBlocks_not_mined V sched blocks s.chain.height e hs B hB t ht
  simp [hne]

/-- Counterexample to C7 as stated: connecting an empty block across the
activation boundary at height 200 drops a held entry that was neither
mined nor newly expired (it has no declared expiry at all), because the
entry is no longer consensus-valid under the branch governing the new
next height; the mempool therefore does not equal the original set minus
the mined set minus the newly-expired set. -/
theorem connect_retention_cex :
    (connectMany scenarioValidator testSchedule s198w [emptyBlock]).mempool = []
    ∧ s198w.mempool = [wEntry]
    ∧ emptyBlock.txs = []
    ∧ expiryStatus wEntry.tx 200 = ExpiryStatus.Valid := by
  refine ⟨by decide, by decide, by decide, by decide⟩

/-- Concrete instantiation of connect_retention_characterization on the
activation scenario: after the five scenario blocks are connected, the
mempool does not contain the transaction mined at height 196. -/
theorem connect_retention_characterization_witness :
    mpContains (connectMany scenarioValidator testSchedule s195 activationBlocks).mempool
      (xtx 1).txid = false :=
  (connect_retention_characterization scenarioValidator testSchedule s195
    activationBlocks).2 B196 (by decide) (xtx 1) (by decide)

/-- C8: quiescent-state invariant: admission only ever adds entries that
pass the rule check at the current tip height plus one, and both Connect
and Disconnect re-establish the invariant synchronously by sweeping
against the new next height; in particular every entry surviving a
Connect is not Expired at the new tip plus one. -/
theorem stored_entry_invariant (V : Nat → Transaction → Bool)
    (sched : List (Nat × Nat)) (s : NodeState) :
    (∀ tx mp2, mempoolInvariant V sched s →
        admitTx V sched s.chain s.mempool tx = Except.ok mp2 →
        mempoolInvariant V sched ⟨s.chain, mp2⟩)
    ∧ (∀ B, mempoolInvariant V sched (connectBlock V sched s B))
    ∧ (∀ B, mempoolInvariant V sched (disconnectBlock V sched s B))
    ∧ (∀ B e, e ∈ (connectBlock V sched s B).mempool →
        expiryStatus e.tx (s.chain.height + 2) ≠ ExpiryStatus.Expired) := by
  refine ⟨?_, ?_, ?_, ?_⟩
  · intro tx mp2 hinv hok
    obtain ⟨b, hb, hV, hex, _, _, hmp2⟩ := admitTx_ok_elim hok
    subst hmp2
    intro e he
    rcases List.mem_append.mp he with h1 | h2
    · exact hinv e h1
    · rcases List.mem_singleton.mp h2 with rfl
      unfold entryValid
      rw [hb]
      simp [hV, hex]
  · intro B
    simp only [mempoolInvariant, connectBlock]
    intro e he
    exact List.of_mem_filter he
  · intro B
    simp only [mempoolInvariant, disconnectBlock]
    intro e he
    refine replayTxs_valid V sched ⟨s.chain.height - 1⟩ B.txs _ ?_ e he
    intro e2 he2
    exact List.of_mem_filter he2
  · intro B e he
    simp only [connectBlock] at he
    have hp := List.of_mem_filter he
    unfold entryValid at hp
    revert hp
    split
    · intro hp; cases hp
    · intro hp
      have h2 := (Bool.and_eq_true _ _).mp hp
      simpa using h2.2

/-- Concrete instantiation of stored_entry_invariant: admitting the
shielded spend at tip height 199 leaves a mempool whose single entry
passes the rule check at target height 200. -/
theorem stored_entry_invariant_witness :
    entryValid scenarioValidator testSchedule 200 ⟨spendTx, BLOSSOM_BRANCH_ID⟩ = true := by
  have h := (stored_entry_invariant scenarioValidator testSchedule s199empty).1 spendTx
    [⟨spendTx, BLOSSOM_BRANCH_ID⟩] (by intro e he; cases he) rfl
  exact h ⟨spendTx, BLOSSOM_BRANCH_ID⟩ (List.mem_singleton.mpr rfl)

/-- C6 (amended): disconnecting a block B and immediately reconsidering
it restores exactly the prior node state, provided no transactions were
admitted in between (immediate composition), no expiry boundary is
crossed and every held entry stays branch-valid at the post-disconnect
replay height (the rule check holds at both the pre-disconnect and
post-disconnect next heights), and the held entries neither duplicate nor
conflict with the transactions of B (automatic for states reached by
connecting B). -/
theorem disconnect_reconsider_roundtrip (V : Nat → Transaction → Bool)
    (sched : List (Nat × Nat)) (s : NodeState) (B : Block)
    (hh : 1 ≤ s.chain.height)
    (hnow : ∀ e ∈ s.mempool, entryValid V sched s.chain.height e = true)
    (hnext : ∀ e ∈ s.mempool, entryValid V sched (s.chain.height + 1) e = true)
    (hid : ∀ e ∈ s.mempool, ∀ t ∈ B.txs, e.tx.txid ≠ t.txid)
    (hconf : ∀ e ∈ s.mempool, ∀ t ∈ B.txs, conflicts t e.tx = false) :
    connectBlock V sched (disconnectBlock V sched s B) B = s := by
  have hsub : s.chain.height - 1 + 1 = s.chain.height := Nat.sub_add_cancel hh
  have hfilter1 : List.filter (entryValid V sched (s.chain.height - 1 + 1)) s.mempool
      = s.mempool := by
    rw [hsub]
    exact List.filter_eq_self.mpr hnow
  obtain ⟨R, hR, hRmem⟩ := replayTxs_append V sched ⟨s.chain.height - 1⟩ B.txs s.mempool
  have hmp_all : List.filter
      (fun e => B.txs.all fun t => (e.tx.txid ≠ t.txid) && !conflicts t e.tx)
      s.mempool = s.mempool := by
    apply List.filter_eq_self.mpr
    intro e he
    rw [List.all_eq_true]
    intro t ht
    rw [Bool.and_eq_true, decide_eq_true_eq]
    refine ⟨hid e he t ht, ?_⟩
    rw [hconf e he t ht]
    rfl
  have hR_none : List.filter
      (fun e => B.txs.all fun t => (e.tx.txid ≠ t.txid) && !conflicts t e.tx)
      R = [] := by
    rw [List.filter_eq_nil_iff]
    intro e he hcontra
    have h2 := List.all_eq_true.mp hcontra e.tx (hRmem e he)
    rw [Bool.and_eq_true, decide_eq_true_eq] at h2
    exact h2.1 rfl
  show (⟨⟨s.chain.height - 1 + 1⟩,
      (B.txs.foldl (fun acc t => removeConflicting (removeId acc t.txid) t)
          (replayTxs V sched ⟨s.chain.height - 1⟩ B.txs
            (List.filter (entryValid V sched (s.chain.height - 1 + 1)) s.mempool))).filter
        (entryValid V sched (s.chain.height - 1 + 1 + 1))⟩ : NodeState) = s
  rw [hfilter1, hR, foldl_remove_eq_filter, List.filter_append, hmp_all, hR_none,
    List.append_nil, hsub, List.filter_eq_self.mpr hnext]

/-- Counterexample to C6 as stated: at tip height 199 with a mempool
holding a Blossom-only transaction, invalidating the (transaction-free)
tip block and immediately reconsidering it does not restore the prior
state, although no transaction was admitted in between and no expiry
boundary was crossed: the held entry is swept on disconnect because the
branch governing the post-disconnect next height no longer validates it,
and reconsideration replays nothing to restore it. -/
theorem disconnect_reconsider_roundtrip_cex :
    connectBlock scenarioValidator testSchedule
        (disconnectBlock scenarioValidator testSchedule s199 emptyBlock) emptyBlock ≠ s199
    ∧ emptyBlock.txs = []
    ∧ (∀ e ∈ s199.mempool, expiryStatus e.tx 199 ≠ ExpiryStatus.Expired
        ∧ expiryStatus e.tx 200 ≠ ExpiryStatus.Expired
        ∧ expiryStatus e.tx 201 ≠ ExpiryStatus.Expired) :=
  ⟨by decide, by decide, by decide⟩

/-- Concrete instantiation of disconnect_reconsider_roundtrip away from
any activation boundary: at tip height 150 the held entry survives the
invalidate and reconsider of the tip block and the state is restored
exactly. -/
theorem disconnect_reconsider_roundtrip_witness :
    connectBlock scenarioValidator testSchedule
        (disconnectBlock scenarioValidator testSchedule s150w B150) B150 = s150w := by
  apply disconnect_reconsider_roundtrip
  · decide
  · decide
  · decide
  · decide
  · decide

/-- C9: mempool state is strictly per node: a Connect or Disconnect event
delivered to node i leaves the state of every other node index untouched,
and two nodes with divergent chain views legitimately hold different
mempool contents at the same time (exhibited on the reference scenario at
the height 199 invalidation). -/
theorem per_node_isolation :
    (∀ (V : Nat → Transaction → Bool) (sched : List (Nat × Nat))
        (net : List NodeState) (i j : Nat) (B : Block), j ≠ i →
        (networkConnect V sched net i B)[j]? = net[j]?
          ∧ (networkDisconnect V sched net i B)[j]? = net[j]?)
    ∧ ((networkDisconnect scenarioValidator testSchedule [s199, s199] 0 B199)[0]?
        = some (disconnectBlock scenarioValidator testSchedule s199 B199)
      ∧ (networkDisconnect scenarioValidator testSchedule [s199, s199] 0 B199)[1]?
        = some s199
      ∧ (disconnectBlock scenarioValidator testSchedule s199 B199).mempool
        ≠ s199.mempool) := by
  constructor
  · intro V sched net i j B hji
    constructor
    · unfold networkConnect networkApply
      split
      · exact List.getElem?_set_ne (Ne.symm hji)
      · rfl
    · unfold networkDisconnect networkApply
      split
      · exact List.getElem?_set_ne (Ne.symm hji)
      · rfl
  · refine ⟨by decide, by decide, by decide⟩

/-- Concrete instantiation of per_node_isolation: the disconnect
delivered to node 0 leaves the state of node 1 unchanged. -/
theorem per_node_isolation_witness :
    (networkDisconnect scenarioValidator testSchedule [s199, s199] 0 B199)[1]?
      = [s199, s199][1]? :=
  (per_node_isolation.1 scenarioValidator testSchedule [s199, s199] 0 1 B199
    (by decide)).2

/-- C1: evaluation of the disconnect ordering at the failing input pinned
by the reference test.  The behaviour the test documents as a bug
(replaying at the stale pre-disconnect height) rejects every replayed
base-branch transaction of the disconnected block, leaving the mempool
empty, even though each such transaction passes the rule check at the
true post-disconnect target height 199; the ordering the claim and the
spec mandate (height updated before replay) re-admits it. -/
theorem disconnect_replay_height_divergence :
    (disconnectBlockPreUpdate scenarioValidator testSchedule s199 B199).mempool = []
    ∧ (disconnectBlock scenarioValidator testSchedule s199 B199).mempool
        = [⟨xtx 5, SAPLING_BRANCH_ID⟩]
    ∧ (disconnectBlockPreUpdate scenarioValidator testSchedule s199 B199).chain.height = 198
    ∧ entryValid scenarioValidator testSchedule 199 ⟨xtx 5, SAPLING_BRANCH_ID⟩ = true
    ∧ admitTx scenarioValidator testSchedule ⟨199⟩ s199.mempool (xtx 5)
        = Except.error RejectReason.ConsensusInvalid :=
  ⟨by decide, by decide, by decide, by decide, rfl⟩

/-- C3: the end-to-end activation scenario: six base-branch transactions
submitted at tip height 195, each expiring exactly at the activation
height 200 (inside the near-horizon from height 197 on), are all
admitted; the blocks mined at heights 196
through 199 contain only submitted transactions and are the only blocks
containing them (the block at height 200 contains none); the mempool is
non-empty while the base branch governs and is empty immediately after
the block at height 200 is mined; fewer transactions are mined than were
submitted. -/
theorem activation_boundary_scenario :
    s195.chain.height = 195
    ∧ (∀ t ∈ xSubmissions, t.expiryHeight = 200
        ∧ expiryStatus t 196 ≠ ExpiryStatus.Expired
        ∧ expiryStatus t 197 = ExpiryStatus.ExpiringSoon)
    ∧ s195.mempool = xSubmissions.map (fun t => ⟨t, SAPLING_BRANCH_ID⟩)
    ∧ (∀ B ∈ [B196, B197, B198, B199], ∀ t ∈ B.txs, t ∈ xSubmissions)
    ∧ B200.txs = []
    ∧ (connectMany scenarioValidator testSchedule s195 [B196]).mempool ≠ []
    ∧ (connectMany scenarioValidator testSchedule s195 [B196, B197]).mempool ≠ []
    ∧ (connectMany scenarioValidator testSchedule s195 [B196, B197, B198]).mempool ≠ []
    ∧ sAfter200.chain.height = 200
    ∧ sAfter200.mempool = []
    ∧ (B196.txs.length + B197.txs.length + B198.txs.length + B199.txs.length
        + B200.txs.length < xSubmissions.length) :=
  ⟨by decide, by decide, by decide, by decide, by decide, by decide, by decide,
    by decide, by decide, by decide, by decide⟩

/-- C10: observable shielded balance around a mempool-held spend: before
the spend is admitted the balance of the owning address is the note
amount; while the spend is held in the mempool the balance is 0; after
the spend is dropped as a consequence of disconnecting the tip block, the
balance is restored to exactly its prior value. -/
theorem shielded_balance_roundtrip :
    shieldedBalance walletNotes s199empty.mempool 0 = 9
    ∧ s199spend.mempool = [⟨spendTx, BLOSSOM_BRANCH_ID⟩]
    ∧ shieldedBalance walletNotes s199spend.mempool 0 = 0
    ∧ mpContains (disconnectBlock scenarioValidator testSchedule s199spend B199).mempool
        spendTx.txid = false
    ∧ shieldedBalance walletNotes
        (disconnectBlock scenarioValidator testSchedule s199spend B199).mempool 0
      = shieldedBalance walletNotes s199empty.mempool 0 :=
  ⟨by decide, by decide, by decide, by decide, by decide⟩
